import Mathlib

/-!
# giantbomb-show-dl — verification of the download orchestration core

Shallow embedding of the download orchestrator (`downloadShow`,
`downloadVideosById`, `downloadVideo` in the CLI entry file) together with
the interfaces it consumes.  External collaborators (the HTTP API, the
filesystem, the download tracker ledger, filename sanitization, day-level
date comparison) are modelled explicitly: network results are oracle
functions in an `Env` record, the filesystem and the ledger are explicit
state in a `St` record, and every write / fetch / existence probe is
logged so that theorems can speak about which files were written and
which URLs were fetched.
-/

namespace GiantBombDL

/-- The four recognized quality tiers (`QUALITY_OPTIONS` in the source). -/
inductive Quality
  | low
  | high
  | hd
  | highest
deriving DecidableEq, Repr

/-- A catalog video record, with the fields the orchestrator reads.
URL-valued fields are `Option String`: `none` is a missing field
(JS `undefined`), `some s` a present string (which may still be
falsy in JS when empty -- see `jsTruthy`). -/
structure Video where
  id : String
  name : String
  publish_date : String
  image_url : Option String
  hd_url : Option String
  high_url : Option String
  low_url : Option String
deriving DecidableEq, Repr

/-- A catalog show record, with the fields the orchestrator reads. -/
structure GBShow where
  title : String
  image_url : Option String
  logo_url : Option String
deriving DecidableEq, Repr

/-- The per-run counters (`DownloadCounter` in the source). -/
structure DownloadCounter where
  downloaded : Nat
  skipped : Nat
  failed : Nat
deriving DecidableEq, Repr

/-- The terminal event of one `downloadVideo` call; each constructor
corresponds to exactly one of the mutually exclusive exit paths (and to
the logger call made on that path). -/
inductive Outcome
  | skipBeforeDate
  | skipAfterDate
  | skipDownloaded
  | skipNoUrl
  | downloadedOk
  | downloadFailed
deriving DecidableEq, Repr

/-- JS truthiness of a `string | undefined` value: `undefined` and the
empty string are falsy. -/
def jsTruthy : Option String → Bool
  | none => false
  | some s => s ≠ ""

/-- JS `a || b` on `string | undefined` values: `a` when truthy, else `b`. -/
def jsOr (a b : Option String) : Option String :=
  if jsTruthy a then a else b

/-- Quality resolution, embedding the cascade

`hdUrl = quality !== low && quality !== high && video.hd_url`;
`highUrl = quality !== low && video.high_url`;
`urlToDownload = hdUrl || highUrl || video.low_url`.

A JS `false` conjunct result is falsy just like `undefined`, so it is
modelled as `none`. -/
def resolveUrl (q : Quality) (v : Video) : Option String :=
  let hdUrl := if q = Quality.low ∨ q = Quality.high then none else v.hd_url
  let highUrl := if q = Quality.low then none else v.high_url
  jsOr (jsOr hdUrl highUrl) v.low_url

/-- Characters replaced by the `sanitize-filename` collaborator.
Modelled from the spec: filesystem path sanitization is an external
collaborator ("unsafe path characters replaced with a fixed placeholder
character"); this is the library's illegal-character set. -/
def illegalChar (c : Char) : Bool :=
  c = '/' || c = '?' || c = '<' || c = '>' || c = '\\' ||
  c = ':' || c = '*' || c = '|' || c = '"' || c.toNat < 32

/-- `sanitize(s, { replacement: "_" })`: every illegal path character is
replaced with the placeholder `_`. -/
def sanitize (s : String) : String :=
  ⟨s.data.map (fun c => if illegalChar c then '_' else c)⟩

/-- Split a character list at every occurrence of a separator character
(the list-level counterpart of `String.splitOn` for a one-character
separator). -/
def splitOnChar (c : Char) : List Char → List (List Char)
  | [] => [[]]
  | x :: xs =>
    let r := splitOnChar c xs
    if x = c then [] :: r else (x :: r.headD []) :: r.tail

/-- Node `path.extname`: the extension of the final path segment, from
its last dot; empty when the segment has no dot or is a pure dotfile. -/
def extname (s : String) : String :=
  let seg := (splitOnChar '/' s.data).getLastD []
  let parts := splitOnChar '.' seg
  if parts.length ≤ 1 then ""
  else if parts.getD 0 [] = [] ∧ parts.length = 2 then ""
  else ⟨'.' :: parts.getLastD []⟩

/-- Node `path.join` restricted to the two-argument uses in the source. -/
def pathJoin (dir p : String) : String := dir ++ "/" ++ p

/-- Day-granularity value of a `YYYY-MM-DD...` date string: the digits of
the first ten characters read as a number (`20200102` for
`2020-01-02`), so `<` on values is day-level date order.  Modelled from
the spec: `dayjs` parsing/comparison is an external collaborator,
compared at calendar-day granularity. -/
def dateVal (s : String) : Nat :=
  ((s.take 10).toList.filter Char.isDigit).foldl
    (fun acc c => acc * 10 + (c.toNat - 48)) 0

/-- `fromDate && publishDate.isBefore(fromDate, "day")`. -/
def beforeFrom (fromDate : Option String) (v : Video) : Bool :=
  match fromDate with
  | some fd => dateVal v.publish_date < dateVal fd
  | none => false

/-- `toDate && publishDate.isAfter(toDate, "day")`. -/
def afterTo (toDate : Option String) (v : Video) : Bool :=
  match toDate with
  | some td => dateVal td < dateVal v.publish_date
  | none => false

/-- Whether a URL matches the regex `_[0-9]{4}\.mp4$`: an underscore,
four digits and `.mp4` at the very end. -/
def bitrateSuffix (s : String) : Bool :=
  match (s.takeRight 9).toList with
  | ['_', a, b, c, d, '.', 'm', 'p', '4'] =>
    a.isDigit && b.isDigit && c.isDigit && d.isDigit
  | _ => false

/-- `hd_url.replace(/_[0-9]{4}\.mp4$/, "_8000.mp4")`: replace a trailing
4-digit bitrate token with `8000`; a non-matching string is unchanged. -/
def replace8k (s : String) : String :=
  if bitrateSuffix s then s.dropRight 9 ++ "_8000.mp4" else s

/-- Stand-in for `JSON.stringify(...)` on an `Option String` field.
Modelled from the spec: serialization details are external; only content
identity matters to the claims. -/
def optStr : Option String → String
  | none => "null"
  | some s => s

/-- Stand-in for `JSON.stringify(video, null, 2)` (modelled: external
serialization, injective on the fields read by the orchestrator). -/
def videoJson (v : Video) : String :=
  v.id ++ "|" ++ v.name ++ "|" ++ v.publish_date ++ "|" ++
  optStr v.image_url ++ "|" ++ optStr v.hd_url ++ "|" ++
  optStr v.high_url ++ "|" ++ optStr v.low_url

/-- Stand-in for `JSON.stringify(show, null, 2)` (modelled as for videos). -/
def showJson (s : GBShow) : String :=
  s.title ++ "|" ++ optStr s.image_url ++ "|" ++ optStr s.logo_url

/-- Oracles for the external collaborators (`GiantBombAPI` lives outside
the embedded file). Modelled from the spec: fetch bytes from a URL to a
local path → success/failure boolean; probe URL existence → boolean;
lookup video by identifier → video or not-found. -/
structure Env where
  downloadFile : String → String → Bool
  checkIfExists : String → Bool
  getVideoById : String → Option Video

/-- The mutable world of one run: the tracker ledger (list of completed
asset keys), the metadata filesystem (path ↦ content, first entry wins),
a log of every file path written, a log of every `(url, target)` passed
to `downloadFile`, a log of every URL probed with `checkIfExists`, and
the run counters. -/
structure St where
  tracker : List String
  fs : List (String × String)
  writes : List String
  fetched : List (String × String)
  probes : List String
  counts : DownloadCounter
deriving DecidableEq, Repr

/-- `tracker.isDownloaded(key)`.  Modelled from the spec:
`DownloadTracker` lives outside the embedded file; true iff `key` has a
completed marker in the ledger. -/
def isDownloaded (st : St) (key : String) : Bool :=
  decide (key ∈ st.tracker)

/-- `tracker.markDownloaded(key)`.  Modelled from the spec: sets `key`'s
marker to completed (persistence of the ledger file is a side effect
invisible to the claims). -/
def markDownloaded (st : St) (key : String) : St :=
  { st with tracker := key :: st.tracker }

/-- `fs.existsSync(p)` on the metadata filesystem. -/
def fsExists (st : St) (p : String) : Bool :=
  (st.fs.lookup p).isSome

/-- `fs.writeFileSync(p, c)`: overwrite semantics, and the path is
logged as written. -/
def writeFile (st : St) (p c : String) : St :=
  { st with fs := (p, c) :: st.fs, writes := p :: st.writes }

def incDownloaded (st : St) : St :=
  { st with counts := { st.counts with downloaded := st.counts.downloaded + 1 } }

def incSkipped (st : St) : St :=
  { st with counts := { st.counts with skipped := st.counts.skipped + 1 } }

def incFailed (st : St) : St :=
  { st with counts := { st.counts with failed := st.counts.failed + 1 } }

/-- The counter update determined by an outcome: exactly one of the three
counters goes up by one. -/
def bump (c : DownloadCounter) : Outcome → DownloadCounter
  | Outcome.downloadedOk => { c with downloaded := c.downloaded + 1 }
  | Outcome.downloadFailed => { c with failed := c.failed + 1 }
  | _ => { c with skipped := c.skipped + 1 }

/-- The sanitized per-video base name:
`sanitize(publish_date + " - " + name, { replacement: "_" })`. -/
def videoBase (v : Video) : String :=
  sanitize (v.publish_date ++ " - " ++ v.name)

/-- The per-video metadata path: `<dir>/<sanitized base>.metadata.json`. -/
def videoMetaPath (dir : String) (v : Video) : String :=
  pathJoin dir (videoBase v ++ ".metadata.json")

/-- Lines 243-248: write the per-video metadata file only when absent. -/
def metadataStep (dir : String) (v : Video) (st : St) : St :=
  if fsExists st (videoMetaPath dir v) then st
  else writeFile st (videoMetaPath dir v) (videoJson v)

/-- Lines 250-264: when the video has a truthy image URL and the derived
key `<id>_image` is untracked, fetch the image to
`<dir>/<sanitized base><extname>`; mark the key only on success. -/
def imageStep (env : Env) (dir : String) (v : Video) (st : St) : St :=
  if jsTruthy v.image_url && !(isDownloaded st (v.id ++ "_image")) then
    let iu := (v.image_url).getD ""
    let target := pathJoin dir (videoBase v ++ extname iu)
    let st1 : St :=
      { st with writes := target :: st.writes,
                fetched := (iu, target) :: st.fetched }
    if env.downloadFile iu target then markDownloaded st1 (v.id ++ "_image")
    else st1
  else st

/-- Lines 285-287: the main video file name.  NOTE: built from the raw
(unsanitized) `publish_date.substring(0, 10)` and `name`, unlike the
metadata/image names. -/
def videoTargetName (v : Video) (u : String) : String :=
  v.publish_date.take 10 ++ " - " ++ v.name ++ extname u

/-- Lines 290-299: the probe-and-upgrade step.  Only when the quality is
`highest` and the resolved URL is the video's hd URL, derive the `_8000`
URL, probe it, and use it when it exists.  Returns the (possibly
upgraded) URL to download; the probe is logged. -/
def probeStep (env : Env) (q : Quality) (v : Video) (u : String) (st : St) :
    St × String :=
  if q = Quality.highest ∧ v.hd_url = some u then
    let hu := replace8k u
    let st1 : St := { st with probes := hu :: st.probes }
    if env.checkIfExists hu then (st1, hu) else (st1, u)
  else (st, u)

/-- Lines 301-310: attempt the main file download; on success increment
`downloaded` and mark the video's id, on failure increment `failed` and
leave the ledger alone.  `u` is the originally resolved URL (used for
the file name), `uFinal` the possibly probe-upgraded URL fetched. -/
def fetchStep (env : Env) (dir : String) (v : Video) (u uFinal : String)
    (st : St) : St × Outcome :=
  let target := pathJoin dir (videoTargetName v u)
  let st1 : St :=
    { st with writes := target :: st.writes,
              fetched := (uFinal, target) :: st.fetched }
  if env.downloadFile uFinal target then
    (incDownloaded (markDownloaded st1 v.id), Outcome.downloadedOk)
  else
    (incFailed st1, Outcome.downloadFailed)

/-- Lines 266-310: the tail of the per-video procedure, after the date
filter and the metadata/image handling: already-downloaded check, quality
resolution, probe-and-upgrade, download. -/
def corePhase (env : Env) (q : Quality) (dir : String) (v : Video)
    (st : St) : St × Outcome :=
  if isDownloaded st v.id then (incSkipped st, Outcome.skipDownloaded)
  else if jsTruthy (resolveUrl q v) = false then
    (incSkipped st, Outcome.skipNoUrl)
  else
    let u := (resolveUrl q v).getD ""
    let pr := probeStep env q v u st
    fetchStep env dir v u pr.2 pr.1

/-- Lines 219-311: the full per-video procedure `downloadVideo`.  Date
filter first (each bound checked only when present), then metadata write,
then image fetch, then the core phase. -/
def downloadVideo (env : Env) (q : Quality) (dir : String)
    (fromDate toDate : Option String) (v : Video) (st : St) : St × Outcome :=
  if beforeFrom fromDate v then (incSkipped st, Outcome.skipBeforeDate)
  else if afterTo toDate v then (incSkipped st, Outcome.skipAfterDate)
  else corePhase env q dir v (imageStep env dir v (metadataStep dir v st))

/-- Lines 189-191: run the per-video procedure over a video list in order,
threading the state. -/
def processVideos (env : Env) (q : Quality) (dir : String)
    (fromDate toDate : Option String) : List Video → St → St
  | [], st => st
  | v :: rest, st =>
    processVideos env q dir fromDate toDate rest
      (downloadVideo env q dir fromDate toDate v st).1

/-- Lines 141-145: write the show's `metadata.json` only when absent. -/
def writeShowMetadata (sh : GBShow) (dir : String) (st : St) : St :=
  if fsExists st (pathJoin dir "metadata.json") then st
  else writeFile st (pathJoin dir "metadata.json") (showJson sh)

/-- Lines 147-177: fetch one show-level asset (poster or logo) when its
URL is truthy and its tracker key is untracked; mark only on success. -/
def fetchShowAsset (env : Env) (dir : String) (key base : String)
    (url : Option String) (st : St) : St :=
  if jsTruthy url then
    let u := url.getD ""
    let target := pathJoin dir (base ++ extname u)
    if !(isDownloaded st key) then
      let st1 : St :=
        { st with writes := target :: st.writes,
                  fetched := (u, target) :: st.fetched }
      if env.downloadFile u target then markDownloaded st1 key else st1
    else st
  else st

/-- Lines 116-194: the show-mode procedure, given an already fetched show
record and its video list (lookup failures exit the process before this
logic runs).  The show directory name is the sanitized title; counters
are freshly zeroed for the run. -/
def downloadShow (env : Env) (q : Quality) (baseDir : String)
    (fromDate toDate : Option String) (sh : GBShow) (videos : List Video)
    (st : St) : St :=
  let dir := pathJoin baseDir (sanitize sh.title)
  let st1 := writeShowMetadata sh dir st
  let st2 := fetchShowAsset env dir "show_image" "image" sh.image_url st1
  let st3 := fetchShowAsset env dir "show_logo" "logo" sh.logo_url st2
  let st4 : St := { st3 with counts := ⟨0, 0, 0⟩ }
  processVideos env q dir fromDate toDate videos st4

/-- Lines 207-214: the identifier-mode loop: lookup each id in order;
not-found increments `failed` and continues; found runs the per-video
procedure with no date bounds. -/
def downloadVideosByIdLoop (env : Env) (q : Quality) (dir : String) :
    List String → St → St
  | [], st => st
  | vid :: rest, st =>
    match env.getVideoById vid with
    | none => downloadVideosByIdLoop env q dir rest (incFailed st)
    | some v =>
      downloadVideosByIdLoop env q dir rest
        (downloadVideo env q dir none none v st).1

/-- Lines 196-217: identifier mode with freshly zeroed counters. -/
def downloadVideosById (env : Env) (q : Quality) (dir : String)
    (ids : List String) (st : St) : St :=
  downloadVideosByIdLoop env q dir ids { st with counts := ⟨0, 0, 0⟩ }

/-! ## Basic lemmas about the embedded steps -/

theorem append_image_ne (s : String) : s ++ "_image" ≠ s := by
  intro h
  have hlen := congrArg String.length h
  simp [String.length_append] at hlen
  exact absurd hlen (by decide)

theorem metadataStep_tracker (dir : String) (v : Video) (st : St) :
    (metadataStep dir v st).tracker = st.tracker := by
  unfold metadataStep
  split <;> rfl

theorem metadataStep_counts (dir : String) (v : Video) (st : St) :
    (metadataStep dir v st).counts = st.counts := by
  unfold metadataStep
  split <;> rfl

theorem metadataStep_probes (dir : String) (v : Video) (st : St) :
    (metadataStep dir v st).probes = st.probes := by
  unfold metadataStep
  split <;> rfl

theorem metadataStep_fetched (dir : String) (v : Video) (st : St) :
    (metadataStep dir v st).fetched = st.fetched := by
  unfold metadataStep
  split <;> rfl

theorem metadataStep_fs_preserve (dir : String) (v : Video) (st : St)
    (p c : String) (h : st.fs.lookup p = some c) :
    (metadataStep dir v st).fs.lookup p = some c := by
  unfold metadataStep
  split
  · exact h
  · rename_i hne
    simp only [writeFile, List.lookup]
    by_cases hp : p = videoMetaPath dir v
    · subst hp
      simp [fsExists, h] at hne
    · simp [beq_false_of_ne hp, h]

theorem metadataStep_fs_writes (dir : String) (v : Video) (st : St)
    (h : fsExists st (videoMetaPath dir v) = false) :
    (metadataStep dir v st).fs.lookup (videoMetaPath dir v) =
      some (videoJson v) := by
  unfold metadataStep
  rw [h]
  simp [writeFile, List.lookup]

theorem imageStep_counts (env : Env) (dir : String) (v : Video) (st : St) :
    (imageStep env dir v st).counts = st.counts := by
  unfold imageStep
  dsimp only
  split
  · split <;> rfl
  · rfl

theorem imageStep_fs (env : Env) (dir : String) (v : Video) (st : St) :
    (imageStep env dir v st).fs = st.fs := by
  unfold imageStep
  dsimp only
  split
  · split <;> rfl
  · rfl

theorem imageStep_probes (env : Env) (dir : String) (v : Video) (st : St) :
    (imageStep env dir v st).probes = st.probes := by
  unfold imageStep
  dsimp only
  split
  · split <;> rfl
  · rfl

theorem imageStep_tracker_mem (env : Env) (dir : String) (v : Video)
    (st : St) (k : String) (hk : k ≠ v.id ++ "_image") :
    (k ∈ (imageStep env dir v st).tracker ↔ k ∈ st.tracker) := by
  unfold imageStep
  dsimp only
  split
  · split
    · simp [markDownloaded, hk]
    · rfl
  · rfl

theorem imageStep_tracker_mono (env : Env) (dir : String) (v : Video)
    (st : St) : st.tracker ⊆ (imageStep env dir v st).tracker := by
  unfold imageStep
  dsimp only
  split
  · split
    · intro a ha
      simp [markDownloaded]
      exact Or.inr ha
    · exact fun a ha => ha
  · exact fun a ha => ha

theorem probeStep_state (env : Env) (q : Quality) (v : Video) (u : String)
    (st : St) :
    (probeStep env q v u st).1.tracker = st.tracker ∧
    (probeStep env q v u st).1.fs = st.fs ∧
    (probeStep env q v u st).1.writes = st.writes ∧
    (probeStep env q v u st).1.fetched = st.fetched ∧
    (probeStep env q v u st).1.counts = st.counts := by
  unfold probeStep
  dsimp only
  split
  · split <;> exact ⟨rfl, rfl, rfl, rfl, rfl⟩
  · exact ⟨rfl, rfl, rfl, rfl, rfl⟩

theorem fetchStep_spec (env : Env) (dir : String) (v : Video)
    (u uF : String) (st : St) :
    ((fetchStep env dir v u uF st).2 = Outcome.downloadedOk ∨
      (fetchStep env dir v u uF st).2 = Outcome.downloadFailed) ∧
    (fetchStep env dir v u uF st).1.counts =
      bump st.counts (fetchStep env dir v u uF st).2 ∧
    ((fetchStep env dir v u uF st).2 = Outcome.downloadedOk →
      (fetchStep env dir v u uF st).1.tracker = v.id :: st.tracker) ∧
    ((fetchStep env dir v u uF st).2 = Outcome.downloadFailed →
      (fetchStep env dir v u uF st).1.tracker = st.tracker) ∧
    (fetchStep env dir v u uF st).1.fs = st.fs ∧
    (fetchStep env dir v u uF st).1.writes =
      pathJoin dir (videoTargetName v u) :: st.writes ∧
    (fetchStep env dir v u uF st).1.fetched =
      (uF, pathJoin dir (videoTargetName v u)) :: st.fetched ∧
    (fetchStep env dir v u uF st).1.probes = st.probes := by
  unfold fetchStep
  dsimp only
  split
  · refine ⟨Or.inl rfl, rfl, fun _ => rfl, fun h => ?_, rfl, rfl, rfl, rfl⟩
    simp at h
  · refine ⟨Or.inr rfl, rfl, fun h => ?_, fun _ => rfl, rfl, rfl, rfl, rfl⟩
    simp at h

/-- The composed metadata-and-image phase preserves counters. -/
theorem pre_counts (env : Env) (dir : String) (v : Video) (st : St) :
    (imageStep env dir v (metadataStep dir v st)).counts = st.counts := by
  rw [imageStep_counts, metadataStep_counts]

theorem pre_probes (env : Env) (dir : String) (v : Video) (st : St) :
    (imageStep env dir v (metadataStep dir v st)).probes = st.probes := by
  rw [imageStep_probes, metadataStep_probes]

theorem pre_tracker_mem (env : Env) (dir : String) (v : Video) (st : St)
    (k : String) (hk : k ≠ v.id ++ "_image") :
    (k ∈ (imageStep env dir v (metadataStep dir v st)).tracker ↔
      k ∈ st.tracker) := by
  rw [imageStep_tracker_mem env dir v _ k hk, metadataStep_tracker]

theorem pre_tracker_mono (env : Env) (dir : String) (v : Video) (st : St) :
    st.tracker ⊆ (imageStep env dir v (metadataStep dir v st)).tracker := by
  have h1 := imageStep_tracker_mono env dir v (metadataStep dir v st)
  rw [metadataStep_tracker] at h1
  exact h1

theorem pre_fs_preserve (env : Env) (dir : String) (v : Video) (st : St)
    (p c : String) (h : st.fs.lookup p = some c) :
    (imageStep env dir v (metadataStep dir v st)).fs.lookup p = some c := by
  rw [imageStep_fs]
  exact metadataStep_fs_preserve dir v st p c h

/-- Membership of the video's main id is untouched by the metadata and
image phases. -/
theorem pre_id_mem (env : Env) (dir : String) (v : Video) (st : St) :
    (v.id ∈ (imageStep env dir v (metadataStep dir v st)).tracker ↔
      v.id ∈ st.tracker) :=
  pre_tracker_mem env dir v st v.id (fun h => append_image_ne v.id h.symm)

/-- Unfolding: a video strictly before `fromDate` is skipped at once. -/
theorem downloadVideo_before (env : Env) (q : Quality) (dir : String)
    (fromDate toDate : Option String) (v : Video) (st : St)
    (h : beforeFrom fromDate v = true) :
    downloadVideo env q dir fromDate toDate v st =
      (incSkipped st, Outcome.skipBeforeDate) := by
  unfold downloadVideo
  rw [h]
  simp

/-- Unfolding: a video strictly after `toDate` (and not before
`fromDate`) is skipped at once. -/
theorem downloadVideo_after (env : Env) (q : Quality) (dir : String)
    (fromDate toDate : Option String) (v : Video) (st : St)
    (h1 : beforeFrom fromDate v = false) (h2 : afterTo toDate v = true) :
    downloadVideo env q dir fromDate toDate v st =
      (incSkipped st, Outcome.skipAfterDate) := by
  unfold downloadVideo
  rw [h1, h2]
  simp

/-- Unfolding: an in-range video runs metadata, image, then the core. -/
theorem downloadVideo_inRange (env : Env) (q : Quality) (dir : String)
    (fromDate toDate : Option String) (v : Video) (st : St)
    (h1 : beforeFrom fromDate v = false) (h2 : afterTo toDate v = false) :
    downloadVideo env q dir fromDate toDate v st =
      corePhase env q dir v (imageStep env dir v (metadataStep dir v st)) := by
  unfold downloadVideo
  rw [h1, h2]
  simp

theorem corePhase_counts (env : Env) (q : Quality) (dir : String)
    (v : Video) (st : St) :
    (corePhase env q dir v st).1.counts =
      bump st.counts (corePhase env q dir v st).2 := by
  unfold corePhase
  dsimp only
  split
  · rfl
  · split
    · rfl
    · have hp := probeStep_state env q v ((resolveUrl q v).getD "") st
      have hf := fetchStep_spec env dir v ((resolveUrl q v).getD "")
        (probeStep env q v ((resolveUrl q v).getD "") st).2
        (probeStep env q v ((resolveUrl q v).getD "") st).1
      rw [hf.2.1, hp.2.2.2.2]

theorem corePhase_outcome (env : Env) (q : Quality) (dir : String)
    (v : Video) (st : St) :
    (corePhase env q dir v st).2 = Outcome.skipDownloaded ∨
    (corePhase env q dir v st).2 = Outcome.skipNoUrl ∨
    (corePhase env q dir v st).2 = Outcome.downloadedOk ∨
    (corePhase env q dir v st).2 = Outcome.downloadFailed := by
  unfold corePhase
  dsimp only
  split
  · exact Or.inl rfl
  · split
    · exact Or.inr (Or.inl rfl)
    · have hf := fetchStep_spec env dir v ((resolveUrl q v).getD "")
        (probeStep env q v ((resolveUrl q v).getD "") st).2
        (probeStep env q v ((resolveUrl q v).getD "") st).1
      rcases hf.1 with h | h
      · exact Or.inr (Or.inr (Or.inl h))
      · exact Or.inr (Or.inr (Or.inr h))

theorem corePhase_skipDownloaded_iff (env : Env) (q : Quality)
    (dir : String) (v : Video) (st : St) :
    ((corePhase env q dir v st).2 = Outcome.skipDownloaded ↔
      isDownloaded st v.id = true) := by
  unfold corePhase
  dsimp only
  split
  · rename_i h
    simp [h]
  · rename_i h
    simp only [Bool.not_eq_true] at h
    split
    · simp [h]
    · have hf := fetchStep_spec env dir v ((resolveUrl q v).getD "")
        (probeStep env q v ((resolveUrl q v).getD "") st).2
        (probeStep env q v ((resolveUrl q v).getD "") st).1
      constructor
      · intro ho
        rcases hf.1 with h2 | h2 <;> rw [ho] at h2 <;> exact absurd h2 (by simp)
      · intro hd
        rw [hd] at h
        exact absurd h (by simp)

theorem corePhase_tracker_ok (env : Env) (q : Quality) (dir : String)
    (v : Video) (st : St)
    (h : (corePhase env q dir v st).2 = Outcome.downloadedOk) :
    (corePhase env q dir v st).1.tracker = v.id :: st.tracker := by
  unfold corePhase at h ⊢
  dsimp only at h ⊢
  split at h
  · exact absurd h (by simp)
  · split at h
    · exact absurd h (by simp)
    · rename_i h1 h2
      rw [if_neg h1, if_neg h2]
      have hp := probeStep_state env q v ((resolveUrl q v).getD "") st
      have hf := fetchStep_spec env dir v ((resolveUrl q v).getD "")
        (probeStep env q v ((resolveUrl q v).getD "") st).2
        (probeStep env q v ((resolveUrl q v).getD "") st).1
      rw [hf.2.2.1 h, hp.1]

theorem corePhase_tracker_notOk (env : Env) (q : Quality) (dir : String)
    (v : Video) (st : St)
    (h : (corePhase env q dir v st).2 ≠ Outcome.downloadedOk) :
    (corePhase env q dir v st).1.tracker = st.tracker := by
  unfold corePhase at h ⊢
  dsimp only at h ⊢
  split at h
  · rename_i h1
    rw [if_pos h1]
    rfl
  · rename_i h1
    rw [if_neg h1]
    split at h
    · rename_i h2
      rw [if_pos h2]
      rfl
    · rename_i h2
      rw [if_neg h2]
      have hp := probeStep_state env q v ((resolveUrl q v).getD "") st
      have hf := fetchStep_spec env dir v ((resolveUrl q v).getD "")
        (probeStep env q v ((resolveUrl q v).getD "") st).2
        (probeStep env q v ((resolveUrl q v).getD "") st).1
      rcases hf.1 with h3 | h3
      · exact absurd h3 h
      · rw [hf.2.2.2.1 h3, hp.1]

theorem corePhase_fs (env : Env) (q : Quality) (dir : String)
    (v : Video) (st : St) :
    (corePhase env q dir v st).1.fs = st.fs := by
  unfold corePhase
  dsimp only
  split
  · rfl
  · split
    · rfl
    · have hp := probeStep_state env q v ((resolveUrl q v).getD "") st
      have hf := fetchStep_spec env dir v ((resolveUrl q v).getD "")
        (probeStep env q v ((resolveUrl q v).getD "") st).2
        (probeStep env q v ((resolveUrl q v).getD "") st).1
      rw [hf.2.2.2.2.1, hp.2.1]

/-- The skip outcomes (the four `skipped`-counted exits). -/
def Outcome.isSkip : Outcome → Bool
  | Outcome.downloadedOk => false
  | Outcome.downloadFailed => false
  | _ => true

/-- One `downloadVideo` call updates the counters exactly as `bump` of
its outcome: exactly one counter goes up by exactly one. -/
theorem downloadVideo_counts (env : Env) (q : Quality) (dir : String)
    (fromDate toDate : Option String) (v : Video) (st : St) :
    (downloadVideo env q dir fromDate toDate v st).1.counts =
      bump st.counts (downloadVideo env q dir fromDate toDate v st).2 := by
  cases hb : beforeFrom fromDate v
  · cases ha : afterTo toDate v
    · rw [downloadVideo_inRange env q dir fromDate toDate v st hb ha,
        corePhase_counts, pre_counts]
    · rw [downloadVideo_after env q dir fromDate toDate v st hb ha]
      rfl
  · rw [downloadVideo_before env q dir fromDate toDate v st hb]
    rfl

/-- The tracker only grows across one `downloadVideo` call. -/
theorem downloadVideo_tracker_mono (env : Env) (q : Quality) (dir : String)
    (fromDate toDate : Option String) (v : Video) (st : St) :
    st.tracker ⊆ (downloadVideo env q dir fromDate toDate v st).1.tracker := by
  cases hb : beforeFrom fromDate v
  · cases ha : afterTo toDate v
    · rw [downloadVideo_inRange env q dir fromDate toDate v st hb ha]
      intro a hmem
      have h1 := pre_tracker_mono env dir v st hmem
      by_cases hok :
        (corePhase env q dir v
          (imageStep env dir v (metadataStep dir v st))).2 = Outcome.downloadedOk
      · rw [corePhase_tracker_ok env q dir v _ hok]
        exact List.mem_cons_of_mem _ h1
      · rw [corePhase_tracker_notOk env q dir v _ hok]
        exact h1
    · rw [downloadVideo_after env q dir fromDate toDate v st hb ha]
      exact fun a ha2 => ha2
  · rw [downloadVideo_before env q dir fromDate toDate v st hb]
    exact fun a ha2 => ha2

/-- The main identifier is in the resulting ledger iff it was there
before or the call's download succeeded. -/
theorem downloadVideo_id_mem (env : Env) (q : Quality) (dir : String)
    (fromDate toDate : Option String) (v : Video) (st : St) :
    (v.id ∈ (downloadVideo env q dir fromDate toDate v st).1.tracker ↔
      (v.id ∈ st.tracker ∨
        (downloadVideo env q dir fromDate toDate v st).2 =
          Outcome.downloadedOk)) := by
  cases hb : beforeFrom fromDate v
  · cases ha : afterTo toDate v
    · rw [downloadVideo_inRange env q dir fromDate toDate v st hb ha]
      by_cases hok :
        (corePhase env q dir v
          (imageStep env dir v (metadataStep dir v st))).2 = Outcome.downloadedOk
      · rw [corePhase_tracker_ok env q dir v _ hok, hok]
        simp
      · rw [corePhase_tracker_notOk env q dir v _ hok,
          pre_id_mem env dir v st]
        simp [hok]
    · rw [downloadVideo_after env q dir fromDate toDate v st hb ha]
      simp [incSkipped]
  · rw [downloadVideo_before env q dir fromDate toDate v st hb]
    simp [incSkipped]

/-- Present metadata files are never altered by one `downloadVideo` call. -/
theorem downloadVideo_fs_preserve (env : Env) (q : Quality) (dir : String)
    (fromDate toDate : Option String) (v : Video) (st : St) (p c : String)
    (h : st.fs.lookup p = some c) :
    (downloadVideo env q dir fromDate toDate v st).1.fs.lookup p = some c := by
  cases hb : beforeFrom fromDate v
  · cases ha : afterTo toDate v
    · rw [downloadVideo_inRange env q dir fromDate toDate v st hb ha,
        corePhase_fs]
      exact pre_fs_preserve env dir v st p c h
    · rw [downloadVideo_after env q dir fromDate toDate v st hb ha]
      exact h
  · rw [downloadVideo_before env q dir fromDate toDate v st hb]
    exact h

/-- The outcome of an in-range call is `skipDownloaded` exactly when the
main identifier was already in the ledger at entry. -/
theorem downloadVideo_skipDownloaded_iff (env : Env) (q : Quality)
    (dir : String) (fromDate toDate : Option String) (v : Video) (st : St)
    (hb : beforeFrom fromDate v = false) (ha : afterTo toDate v = false) :
    ((downloadVideo env q dir fromDate toDate v st).2 =
        Outcome.skipDownloaded ↔ v.id ∈ st.tracker) := by
  rw [downloadVideo_inRange env q dir fromDate toDate v st hb ha,
    corePhase_skipDownloaded_iff]
  simp only [isDownloaded, decide_eq_true_eq]
  exact pre_id_mem env dir v st

theorem jsOr_pos (a b : Option String) (h : jsTruthy a = true) :
    jsOr a b = a := by
  simp [jsOr, h]

theorem jsOr_neg (a b : Option String) (h : jsTruthy a = false) :
    jsOr a b = b := by
  simp [jsOr, h]

theorem resolveUrl_low (v : Video) : resolveUrl Quality.low v = v.low_url :=
  rfl

theorem resolveUrl_high (v : Video) :
    resolveUrl Quality.high v = jsOr v.high_url v.low_url := rfl

theorem resolveUrl_hd (v : Video) :
    resolveUrl Quality.hd v = jsOr (jsOr v.hd_url v.high_url) v.low_url :=
  rfl

theorem resolveUrl_highest (v : Video) :
    resolveUrl Quality.highest v =
      jsOr (jsOr v.hd_url v.high_url) v.low_url := rfl

/-! ## Claims -/

/-- C4: Quality resolution follows the fixed fallback order: `low` only
ever selects the low URL; `high` selects the high URL when present
(truthy) else the low URL; `hd` and `highest` (before the probe step)
select the hd URL when present, else high, else low.  In particular
requesting `hd` when only a low URL exists yields the low URL, and
requesting `low` never yields the hd URL when it exists as a distinct
URL. -/
theorem C4_quality_fallback (v : Video) :
    resolveUrl Quality.low v = v.low_url ∧
    (jsTruthy v.high_url = true → resolveUrl Quality.high v = v.high_url) ∧
    (jsTruthy v.high_url = false → resolveUrl Quality.high v = v.low_url) ∧
    (jsTruthy v.hd_url = true → resolveUrl Quality.hd v = v.hd_url ∧
      resolveUrl Quality.highest v = v.hd_url) ∧
    (jsTruthy v.hd_url = false → jsTruthy v.high_url = true →
      resolveUrl Quality.hd v = v.high_url ∧
      resolveUrl Quality.highest v = v.high_url) ∧
    (jsTruthy v.hd_url = false → jsTruthy v.high_url = false →
      resolveUrl Quality.hd v = v.low_url ∧
      resolveUrl Quality.highest v = v.low_url) ∧
    (v.hd_url ≠ v.low_url → resolveUrl Quality.low v ≠ v.hd_url) := by
  refine ⟨rfl, ?_, ?_, ?_, ?_, ?_, ?_⟩
  · intro h
    rw [resolveUrl_high, jsOr_pos _ _ h]
  · intro h
    rw [resolveUrl_high, jsOr_neg _ _ h]
  · intro h
    constructor
    · rw [resolveUrl_hd, jsOr_pos _ _ h, jsOr_pos _ _ h]
    · rw [resolveUrl_highest, jsOr_pos _ _ h, jsOr_pos _ _ h]
  · intro h1 h2
    constructor
    · rw [resolveUrl_hd, jsOr_neg _ _ h1, jsOr_pos _ _ h2]
    · rw [resolveUrl_highest, jsOr_neg _ _ h1, jsOr_pos _ _ h2]
  · intro h1 h2
    constructor
    · rw [resolveUrl_hd, jsOr_neg _ _ h1, jsOr_neg _ _ h2]
    · rw [resolveUrl_highest, jsOr_neg _ _ h1, jsOr_neg _ _ h2]
  · intro h he
    exact h he.symm

/-- Witness for C4 at concrete videos: one with all three URLs, one with
only a low URL. -/
theorem C4_witness :
    resolveUrl Quality.low
      ⟨"1", "n", "2020-01-01", none, some "H", some "G", some "L"⟩ =
      some "L" ∧
    resolveUrl Quality.high
      ⟨"1", "n", "2020-01-01", none, some "H", some "G", some "L"⟩ =
      some "G" ∧
    resolveUrl Quality.hd
      ⟨"1", "n", "2020-01-01", none, some "H", some "G", some "L"⟩ =
      some "H" ∧
    resolveUrl Quality.hd
      ⟨"1", "n", "2020-01-01", none, none, none, some "L"⟩ = some "L" ∧
    resolveUrl Quality.low
      ⟨"1", "n", "2020-01-01", none, some "H", some "G", some "L"⟩ ≠
      some "H" := by
  refine ⟨(C4_quality_fallback _).1, (C4_quality_fallback _).2.1 (by decide),
    ((C4_quality_fallback _).2.2.2.1 (by decide)).1,
    ((C4_quality_fallback _).2.2.2.2.2.1 (by decide) (by decide)).1,
    (C4_quality_fallback
      ⟨"1", "n", "2020-01-01", none, some "H", some "G", some "L"⟩
      ).2.2.2.2.2.2 (by decide)⟩

/-- C5 counterexample: with `fromDate` 2020-05-05 and `toDate` 2020-05-01
(a reversed range), a video published exactly on `fromDate` is skipped
out of range (after `toDate`), refuting "a video published exactly on
`fromDate` ... is included and proceeds to download processing". -/
theorem C5_counterexample :
    (downloadVideo ⟨fun _ _ => true, fun _ => true, fun _ => none⟩
        Quality.hd "d" (some "2020-05-05") (some "2020-05-01")
        ⟨"1", "n", "2020-05-05", none, none, none, some "L"⟩
        ⟨[], [], [], [], [], ⟨0, 0, 0⟩⟩).2 = Outcome.skipAfterDate ∧
    dateVal "2020-05-05" = dateVal "2020-05-05" ∧
    (downloadVideo ⟨fun _ _ => true, fun _ => true, fun _ => none⟩
        Quality.hd "d" (some "2020-05-05") (some "2020-05-01")
        ⟨"1", "n", "2020-05-05", none, none, none, some "L"⟩
        ⟨[], [], [], [], [], ⟨0, 0, 0⟩⟩).1.counts.skipped = 1 := by
  refine ⟨rfl, rfl, rfl⟩

/-- C5 (amended): the date filter's strictness and inclusivity, bound by
bound: a video is skipped as before-range only when strictly before
`fromDate` and as after-range only when strictly after `toDate` (day
granularity); a video whose publish day equals `fromDate` is never
skipped as before-range, one whose publish day equals `toDate` never as
after-range; when neither strict comparison holds the video proceeds
past the date filter. -/
theorem C5_date_inclusive (env : Env) (q : Quality) (dir : String)
    (fromDate toDate : Option String) (v : Video) (st : St) :
    ((downloadVideo env q dir fromDate toDate v st).2 =
        Outcome.skipBeforeDate → beforeFrom fromDate v = true) ∧
    ((downloadVideo env q dir fromDate toDate v st).2 =
        Outcome.skipAfterDate → afterTo toDate v = true) ∧
    (beforeFrom fromDate v = false → afterTo toDate v = false →
      (downloadVideo env q dir fromDate toDate v st).2 ≠
        Outcome.skipBeforeDate ∧
      (downloadVideo env q dir fromDate toDate v st).2 ≠
        Outcome.skipAfterDate) ∧
    (∀ f, fromDate = some f → dateVal v.publish_date = dateVal f →
      (downloadVideo env q dir fromDate toDate v st).2 ≠
        Outcome.skipBeforeDate) ∧
    (∀ t, toDate = some t → dateVal v.publish_date = dateVal t →
      (downloadVideo env q dir fromDate toDate v st).2 ≠
        Outcome.skipAfterDate) := by
  have hrange : ∀ (hb : beforeFrom fromDate v = false)
      (ha : afterTo toDate v = false),
      (downloadVideo env q dir fromDate toDate v st).2 ≠
        Outcome.skipBeforeDate ∧
      (downloadVideo env q dir fromDate toDate v st).2 ≠
        Outcome.skipAfterDate := by
    intro hb ha
    rw [downloadVideo_inRange env q dir fromDate toDate v st hb ha]
    rcases corePhase_outcome env q dir v
      (imageStep env dir v (metadataStep dir v st)) with h | h | h | h <;>
      rw [h] <;> exact ⟨by simp, by simp⟩
  refine ⟨?_, ?_, hrange, ?_, ?_⟩
  · intro h
    cases hb : beforeFrom fromDate v
    · cases ha : afterTo toDate v
      · exact absurd h (hrange hb ha).1
      · rw [downloadVideo_after env q dir fromDate toDate v st hb ha] at h
        exact absurd h (by simp)
    · rfl
  · intro h
    cases ha : afterTo toDate v
    · cases hb : beforeFrom fromDate v
      · exact absurd h (hrange hb ha).2
      · rw [downloadVideo_before env q dir fromDate toDate v st hb] at h
        exact absurd h (by simp)
    · rfl
  · intro f hf heq h
    cases hb : beforeFrom fromDate v
    · cases ha : afterTo toDate v
      · exact absurd h (hrange hb ha).1
      · rw [downloadVideo_after env q dir fromDate toDate v st hb ha] at h
        exact absurd h (by simp)
    · unfold beforeFrom at hb
      rw [hf] at hb
      simp [heq] at hb
  · intro t ht heq h
    cases ha : afterTo toDate v
    · cases hb : beforeFrom fromDate v
      · exact absurd h (hrange hb ha).2
      · rw [downloadVideo_before env q dir fromDate toDate v st hb] at h
        exact absurd h (by simp)
    · unfold afterTo at ha
      rw [ht] at ha
      simp [heq] at ha

/-- Witness for C5 at a concrete in-range call: publish day equal to both
bounds passes the date filter. -/
theorem C5_witness :
    (downloadVideo ⟨fun _ _ => true, fun _ => true, fun _ => none⟩
        Quality.hd "d" (some "2020-05-05") (some "2020-05-05")
        ⟨"1", "n", "2020-05-05", none, none, none, some "L"⟩
        ⟨[], [], [], [], [], ⟨0, 0, 0⟩⟩).2 ≠ Outcome.skipBeforeDate ∧
    (downloadVideo ⟨fun _ _ => true, fun _ => true, fun _ => none⟩
        Quality.hd "d" (some "2020-05-05") (some "2020-05-05")
        ⟨"1", "n", "2020-05-05", none, none, none, some "L"⟩
        ⟨[], [], [], [], [], ⟨0, 0, 0⟩⟩).2 ≠ Outcome.skipAfterDate := by
  refine ⟨(C5_date_inclusive _ _ _ _ _ _ _).2.2.2.1 "2020-05-05" rfl rfl,
    (C5_date_inclusive _ _ _ _ _ _ _).2.2.2.2 "2020-05-05" rfl rfl⟩

/-- C1: the video's main identifier is in the ledger after the call iff
it was there before or the download reported success; on failure the
`failed` counter goes up by one and the identifier's ledger status is
unchanged (so it stays eligible for retry); on success `downloaded` goes
up by one and the identifier is marked. -/
theorem C1_ledger_after_success (env : Env) (q : Quality) (dir : String)
    (fromDate toDate : Option String) (v : Video) (st : St) :
    ((downloadVideo env q dir fromDate toDate v st).2 =
        Outcome.downloadFailed →
      (downloadVideo env q dir fromDate toDate v st).1.counts.failed =
        st.counts.failed + 1 ∧
      (v.id ∈ (downloadVideo env q dir fromDate toDate v st).1.tracker ↔
        v.id ∈ st.tracker)) ∧
    ((downloadVideo env q dir fromDate toDate v st).2 =
        Outcome.downloadedOk →
      v.id ∈ (downloadVideo env q dir fromDate toDate v st).1.tracker ∧
      (downloadVideo env q dir fromDate toDate v st).1.counts.downloaded =
        st.counts.downloaded + 1) ∧
    (v.id ∉ st.tracker →
      v.id ∈ (downloadVideo env q dir fromDate toDate v st).1.tracker →
      (downloadVideo env q dir fromDate toDate v st).2 =
        Outcome.downloadedOk) := by
  have hc := downloadVideo_counts env q dir fromDate toDate v st
  have hm := downloadVideo_id_mem env q dir fromDate toDate v st
  refine ⟨?_, ?_, ?_⟩
  · intro h
    constructor
    · rw [hc, h]
      rfl
    · rw [hm, h]
      simp
  · intro h
    constructor
    · rw [hm, h]
      simp
    · rw [hc, h]
      rfl
  · intro hnot hin
    rcases hm.mp hin with h | h
    · exact absurd h hnot
    · exact h

/-- Witness for C1: a failing download increments `failed` and leaves the
identifier unmarked; a succeeding one marks it and increments
`downloaded`. -/
theorem C1_witness :
    ((downloadVideo ⟨fun _ _ => false, fun _ => false, fun _ => none⟩
        Quality.hd "d" none none
        ⟨"7", "n", "2020-01-01", none, none, none, some "L"⟩
        ⟨[], [], [], [], [], ⟨0, 0, 0⟩⟩).1.counts.failed = 0 + 1 ∧
      ("7" ∈ (downloadVideo ⟨fun _ _ => false, fun _ => false, fun _ => none⟩
        Quality.hd "d" none none
        ⟨"7", "n", "2020-01-01", none, none, none, some "L"⟩
        ⟨[], [], [], [], [], ⟨0, 0, 0⟩⟩).1.tracker ↔
        "7" ∈ ([] : List String))) ∧
    ("7" ∈ (downloadVideo ⟨fun _ _ => true, fun _ => true, fun _ => none⟩
        Quality.hd "d" none none
        ⟨"7", "n", "2020-01-01", none, none, none, some "L"⟩
        ⟨[], [], [], [], [], ⟨0, 0, 0⟩⟩).1.tracker ∧
      (downloadVideo ⟨fun _ _ => true, fun _ => true, fun _ => none⟩
        Quality.hd "d" none none
        ⟨"7", "n", "2020-01-01", none, none, none, some "L"⟩
        ⟨[], [], [], [], [], ⟨0, 0, 0⟩⟩).1.counts.downloaded = 0 + 1) ∧
    (downloadVideo ⟨fun _ _ => true, fun _ => true, fun _ => none⟩
        Quality.hd "d" none none
        ⟨"7", "n", "2020-01-01", none, none, none, some "L"⟩
        ⟨[], [], [], [], [], ⟨0, 0, 0⟩⟩).2 = Outcome.downloadedOk := by
  refine ⟨(C1_ledger_after_success _ _ _ _ _ _ _).1 rfl,
    (C1_ledger_after_success _ _ _ _ _ _ _).2.1 rfl,
    (C1_ledger_after_success _ _ _ _ _ _ _).2.2 (by decide) (by decide)⟩

theorem corePhase_skip_eq (env : Env) (q : Quality) (dir : String)
    (v : Video) (st : St) (h : isDownloaded st v.id = true) :
    corePhase env q dir v st = (incSkipped st, Outcome.skipDownloaded) := by
  unfold corePhase
  dsimp only
  rw [if_pos h]

theorem imageStep_fetched_pos (env : Env) (dir : String) (v : Video)
    (st : St) (h1 : jsTruthy v.image_url = true)
    (h2 : isDownloaded st (v.id ++ "_image") = false) :
    (imageStep env dir v st).fetched =
      ((v.image_url).getD "",
        pathJoin dir (videoBase v ++ extname ((v.image_url).getD ""))) ::
        st.fetched := by
  unfold imageStep
  dsimp only
  rw [if_pos (by rw [h1, h2]; rfl)]
  split <;> rfl

theorem probeStep_pos (env : Env) (q : Quality) (v : Video) (u : String)
    (st : St) (hc : q = Quality.highest ∧ v.hd_url = some u) :
    (probeStep env q v u st).1.probes = replace8k u :: st.probes ∧
    (env.checkIfExists (replace8k u) = true →
      (probeStep env q v u st).2 = replace8k u) ∧
    (env.checkIfExists (replace8k u) = false →
      (probeStep env q v u st).2 = u) := by
  unfold probeStep
  rw [if_pos hc]
  dsimp only
  refine ⟨by split <;> rfl, ?_, ?_⟩
  · intro h
    rw [if_pos h]
  · intro h
    rw [if_neg (by simp [h])]

theorem probeStep_neg (env : Env) (q : Quality) (v : Video) (u : String)
    (st : St) (hc : ¬(q = Quality.highest ∧ v.hd_url = some u)) :
    probeStep env q v u st = (st, u) := by
  unfold probeStep
  rw [if_neg hc]

/-- When the download step is actually reached, `corePhase` is the fetch
of the probe-resolved URL. -/
theorem corePhase_reach (env : Env) (q : Quality) (dir : String)
    (v : Video) (st : St)
    (h : (corePhase env q dir v st).2 = Outcome.downloadedOk ∨
      (corePhase env q dir v st).2 = Outcome.downloadFailed) :
    corePhase env q dir v st =
      fetchStep env dir v ((resolveUrl q v).getD "")
        (probeStep env q v ((resolveUrl q v).getD "") st).2
        (probeStep env q v ((resolveUrl q v).getD "") st).1 := by
  unfold corePhase at h ⊢
  dsimp only at h ⊢
  split at h
  · rcases h with h | h <;> simp at h
  · rename_i h1
    rw [if_neg h1]
    split at h
    · rcases h with h | h <;> simp at h
    · rename_i h2
      rw [if_neg h2]

/-- C3: for an in-range video whose main identifier is already marked
completed, the procedure still backfills the metadata file (when absent)
and still fetches the image (when its URL is truthy and its `<id>_image`
key is untracked) before incrementing `skipped` and returning with the
already-downloaded skip. -/
theorem C3_backfill_before_skip (env : Env) (q : Quality) (dir : String)
    (fromDate toDate : Option String) (v : Video) (st : St)
    (hb : beforeFrom fromDate v = false) (ha : afterTo toDate v = false)
    (hid : v.id ∈ st.tracker) :
    (downloadVideo env q dir fromDate toDate v st).2 =
      Outcome.skipDownloaded ∧
    (downloadVideo env q dir fromDate toDate v st).1.counts.skipped =
      st.counts.skipped + 1 ∧
    (fsExists st (videoMetaPath dir v) = false →
      (downloadVideo env q dir fromDate toDate v st).1.fs.lookup
        (videoMetaPath dir v) = some (videoJson v)) ∧
    (jsTruthy v.image_url = true → (v.id ++ "_image") ∉ st.tracker →
      (downloadVideo env q dir fromDate toDate v st).1.fetched =
        ((v.image_url).getD "",
          pathJoin dir (videoBase v ++ extname ((v.image_url).getD ""))) ::
          st.fetched) := by
  have hpre : isDownloaded
      (imageStep env dir v (metadataStep dir v st)) v.id = true := by
    simp only [isDownloaded, decide_eq_true_eq]
    exact (pre_id_mem env dir v st).mpr hid
  rw [downloadVideo_inRange env q dir fromDate toDate v st hb ha,
    corePhase_skip_eq env q dir v _ hpre]
  refine ⟨rfl, ?_, ?_, ?_⟩
  · show (imageStep env dir v (metadataStep dir v st)).counts.skipped + 1 =
      st.counts.skipped + 1
    rw [pre_counts]
  · intro habs
    show (imageStep env dir v (metadataStep dir v st)).fs.lookup
      (videoMetaPath dir v) = some (videoJson v)
    rw [imageStep_fs]
    exact metadataStep_fs_writes dir v st habs
  · intro h1 h2
    show (imageStep env dir v (metadataStep dir v st)).fetched = _
    rw [imageStep_fetched_pos env dir v _ h1
      (by simp [isDownloaded, metadataStep_tracker, h2]),
      metadataStep_fetched]

/-- Witness for C3: an already-downloaded video with absent metadata and
an untracked image gets both backfilled and is counted skipped. -/
theorem C3_witness :
    (downloadVideo ⟨fun _ _ => true, fun _ => true, fun _ => none⟩
        Quality.hd "d" none none
        ⟨"9", "n", "2020-01-01", some "http://i/p.png", none, none, some "L"⟩
        ⟨["9"], [], [], [], [], ⟨0, 0, 0⟩⟩).2 = Outcome.skipDownloaded ∧
    (downloadVideo ⟨fun _ _ => true, fun _ => true, fun _ => none⟩
        Quality.hd "d" none none
        ⟨"9", "n", "2020-01-01", some "http://i/p.png", none, none, some "L"⟩
        ⟨["9"], [], [], [], [], ⟨0, 0, 0⟩⟩).1.counts.skipped = 0 + 1 ∧
    (downloadVideo ⟨fun _ _ => true, fun _ => true, fun _ => none⟩
        Quality.hd "d" none none
        ⟨"9", "n", "2020-01-01", some "http://i/p.png", none, none, some "L"⟩
        ⟨["9"], [], [], [], [], ⟨0, 0, 0⟩⟩).1.fs.lookup
      (videoMetaPath "d"
        ⟨"9", "n", "2020-01-01", some "http://i/p.png", none, none, some "L"⟩) =
      some (videoJson
        ⟨"9", "n", "2020-01-01", some "http://i/p.png", none, none, some "L"⟩) ∧
    (downloadVideo ⟨fun _ _ => true, fun _ => true, fun _ => none⟩
        Quality.hd "d" none none
        ⟨"9", "n", "2020-01-01", some "http://i/p.png", none, none, some "L"⟩
        ⟨["9"], [], [], [], [], ⟨0, 0, 0⟩⟩).1.fetched =
      [("http://i/p.png", pathJoin "d"
        (videoBase
          ⟨"9", "n", "2020-01-01", some "http://i/p.png", none, none, some "L"⟩
          ++ extname "http://i/p.png"))] := by
  have h := C3_backfill_before_skip
    ⟨fun _ _ => true, fun _ => true, fun _ => none⟩ Quality.hd "d" none none
    ⟨"9", "n", "2020-01-01", some "http://i/p.png", none, none, some "L"⟩
    ⟨["9"], [], [], [], [], ⟨0, 0, 0⟩⟩ rfl rfl (by decide)
  exact ⟨h.1, h.2.1, h.2.2.1 rfl, h.2.2.2 rfl (by decide)⟩

/-- C2: when the download step is reached, the probe-and-upgrade applies
exactly under the two conditions (quality `highest`, resolved URL is the
hd URL): the derived `_8000` URL is probed, and when the probe succeeds
it is the URL actually fetched (to the target built from the originally
resolved URL); under any other quality/URL combination no probe happens
and the originally resolved URL is fetched. -/
theorem C2_probe_upgrade (env : Env) (q : Quality) (dir : String)
    (fromDate toDate : Option String) (v : Video) (st : St)
    (hreach : (downloadVideo env q dir fromDate toDate v st).2 =
        Outcome.downloadedOk ∨
      (downloadVideo env q dir fromDate toDate v st).2 =
        Outcome.downloadFailed) :
    ((q = Quality.highest ∧ v.hd_url = some ((resolveUrl q v).getD "")) →
      (downloadVideo env q dir fromDate toDate v st).1.probes =
        replace8k ((resolveUrl q v).getD "") :: st.probes ∧
      (env.checkIfExists (replace8k ((resolveUrl q v).getD "")) = true →
        (downloadVideo env q dir fromDate toDate v st).1.fetched.head? =
          some (replace8k ((resolveUrl q v).getD ""),
            pathJoin dir (videoTargetName v ((resolveUrl q v).getD ""))))) ∧
    (¬(q = Quality.highest ∧ v.hd_url = some ((resolveUrl q v).getD "")) →
      (downloadVideo env q dir fromDate toDate v st).1.probes = st.probes ∧
      (downloadVideo env q dir fromDate toDate v st).1.fetched.head? =
        some ((resolveUrl q v).getD "",
          pathJoin dir (videoTargetName v ((resolveUrl q v).getD "")))) := by
  cases hb : beforeFrom fromDate v
  · cases ha : afterTo toDate v
    · rw [downloadVideo_inRange env q dir fromDate toDate v st hb ha]
        at hreach ⊢
      rw [corePhase_reach env q dir v _ hreach]
      have hf := fetchStep_spec env dir v ((resolveUrl q v).getD "")
        (probeStep env q v ((resolveUrl q v).getD "")
          (imageStep env dir v (metadataStep dir v st))).2
        (probeStep env q v ((resolveUrl q v).getD "")
          (imageStep env dir v (metadataStep dir v st))).1
      constructor
      · intro hc
        have hp := probeStep_pos env q v ((resolveUrl q v).getD "")
          (imageStep env dir v (metadataStep dir v st)) hc
        constructor
        · rw [hf.2.2.2.2.2.2.2, hp.1, pre_probes]
        · intro hex
          rw [hf.2.2.2.2.2.2.1, hp.2.1 hex]
          rfl
      · intro hc
        have hp := probeStep_neg env q v ((resolveUrl q v).getD "")
          (imageStep env dir v (metadataStep dir v st)) hc
        constructor
        · rw [hf.2.2.2.2.2.2.2, hp, pre_probes]
        · rw [hf.2.2.2.2.2.2.1, hp]
          rfl
    · rw [downloadVideo_after env q dir fromDate toDate v st hb ha]
        at hreach
      rcases hreach with h | h <;> simp at h
  · rw [downloadVideo_before env q dir fromDate toDate v st hb] at hreach
    rcases hreach with h | h <;> simp at h

/-- Witness for C2: `highest` with hd URL `http://v/foo_3500.mp4` and an
existing `_8000` variant fetches the derived URL; `hd` quality on the
same video fetches the hd URL with no probe. -/
theorem C2_witness :
    (downloadVideo ⟨fun _ _ => true, fun _ => true, fun _ => none⟩
        Quality.highest "d" none none
        ⟨"5", "n", "2020-01-01", none, some "http://v/foo_3500.mp4",
          none, none⟩
        ⟨[], [], [], [], [], ⟨0, 0, 0⟩⟩).1.probes =
      ["http://v/foo_8000.mp4"] ∧
    (downloadVideo ⟨fun _ _ => true, fun _ => true, fun _ => none⟩
        Quality.highest "d" none none
        ⟨"5", "n", "2020-01-01", none, some "http://v/foo_3500.mp4",
          none, none⟩
        ⟨[], [], [], [], [], ⟨0, 0, 0⟩⟩).1.fetched.head? =
      some ("http://v/foo_8000.mp4",
        pathJoin "d" (videoTargetName
          ⟨"5", "n", "2020-01-01", none, some "http://v/foo_3500.mp4",
            none, none⟩ "http://v/foo_3500.mp4")) ∧
    (downloadVideo ⟨fun _ _ => true, fun _ => true, fun _ => none⟩
        Quality.hd "d" none none
        ⟨"5", "n", "2020-01-01", none, some "http://v/foo_3500.mp4",
          none, none⟩
        ⟨[], [], [], [], [], ⟨0, 0, 0⟩⟩).1.probes = [] ∧
    (downloadVideo ⟨fun _ _ => true, fun _ => true, fun _ => none⟩
        Quality.hd "d" none none
        ⟨"5", "n", "2020-01-01", none, some "http://v/foo_3500.mp4",
          none, none⟩
        ⟨[], [], [], [], [], ⟨0, 0, 0⟩⟩).1.fetched.head? =
      some ("http://v/foo_3500.mp4",
        pathJoin "d" (videoTargetName
          ⟨"5", "n", "2020-01-01", none, some "http://v/foo_3500.mp4",
            none, none⟩ "http://v/foo_3500.mp4")) := by
  have hA := C2_probe_upgrade
    ⟨fun _ _ => true, fun _ => true, fun _ => none⟩ Quality.highest "d"
    none none
    ⟨"5", "n", "2020-01-01", none, some "http://v/foo_3500.mp4", none, none⟩
    ⟨[], [], [], [], [], ⟨0, 0, 0⟩⟩ (Or.inl rfl)
  have hB := C2_probe_upgrade
    ⟨fun _ _ => true, fun _ => true, fun _ => none⟩ Quality.hd "d"
    none none
    ⟨"5", "n", "2020-01-01", none, some "http://v/foo_3500.mp4", none, none⟩
    ⟨[], [], [], [], [], ⟨0, 0, 0⟩⟩ (Or.inl rfl)
  have hA2 := hA.1 (by decide)
  have hB2 := hB.2 (by decide)
  exact ⟨hA2.1, hA2.2 rfl, hB2.1, hB2.2⟩

theorem isDownloaded_metadataStep (dir : String) (v : Video) (st : St)
    (k : String) :
    isDownloaded (metadataStep dir v st) k = isDownloaded st k := by
  unfold isDownloaded
  rw [metadataStep_tracker]

theorem isDownloaded_pre_id (env : Env) (dir : String) (v : Video)
    (st : St) :
    isDownloaded (imageStep env dir v (metadataStep dir v st)) v.id =
      isDownloaded st v.id := by
  simp only [isDownloaded]
  exact decide_eq_decide.mpr (pre_id_mem env dir v st)

theorem metadataStep_writes (dir : String) (v : Video) (st : St) :
    (metadataStep dir v st).writes =
      (if fsExists st (videoMetaPath dir v) = false then [videoMetaPath dir v]
       else []) ++ st.writes := by
  unfold metadataStep
  cases h : fsExists st (videoMetaPath dir v)
  · rw [if_neg (show ¬(false = true) by simp),
      if_pos (show false = false from rfl)]
    rfl
  · rw [if_pos (show true = true from rfl),
      if_neg (show ¬(true = false) by simp)]
    rfl

theorem imageStep_writes (env : Env) (dir : String) (v : Video) (st : St) :
    (imageStep env dir v st).writes =
      (if jsTruthy v.image_url = true ∧
          isDownloaded st (v.id ++ "_image") = false then
        [pathJoin dir (videoBase v ++ extname ((v.image_url).getD ""))]
       else []) ++ st.writes := by
  unfold imageStep
  dsimp only
  cases hj : jsTruthy v.image_url
  · rw [if_neg (show ¬((false &&
        !isDownloaded st (v.id ++ "_image")) = true) by simp),
      if_neg (show ¬(false = true ∧
        isDownloaded st (v.id ++ "_image") = false) by simp)]
    rfl
  · cases hi : isDownloaded st (v.id ++ "_image")
    · rw [if_pos (show (true && !false) = true from rfl),
        if_pos (show true = true ∧ false = false from ⟨rfl, rfl⟩)]
      split <;> rfl
    · rw [if_neg (show ¬((true && !true) = true) by simp),
        if_neg (show ¬(true = true ∧ true = false) by simp)]
      rfl

theorem corePhase_writes (env : Env) (q : Quality) (dir : String)
    (v : Video) (st : St) :
    (corePhase env q dir v st).1.writes =
      (if isDownloaded st v.id = false ∧
          jsTruthy (resolveUrl q v) = true then
        [pathJoin dir (videoTargetName v ((resolveUrl q v).getD ""))]
       else []) ++ st.writes := by
  unfold corePhase
  dsimp only
  cases h1 : isDownloaded st v.id
  · cases h2 : jsTruthy (resolveUrl q v)
    · rw [if_neg (show ¬(false = true) by simp),
        if_pos (show false = false from rfl),
        if_neg (show ¬(false = false ∧ false = true) by simp)]
      rfl
    · rw [if_neg (show ¬(false = true) by simp),
        if_neg (show ¬(true = false) by simp),
        if_pos (show false = false ∧ true = true from ⟨rfl, rfl⟩)]
      have hf := fetchStep_spec env dir v ((resolveUrl q v).getD "")
        (probeStep env q v ((resolveUrl q v).getD "") st).2
        (probeStep env q v ((resolveUrl q v).getD "") st).1
      have hp := probeStep_state env q v ((resolveUrl q v).getD "") st
      rw [hf.2.2.2.2.2.1, hp.2.2.1]
      rfl
  · rw [if_pos (show true = true from rfl),
      if_neg (show ¬(true = false ∧
        jsTruthy (resolveUrl q v) = true) by simp)]
    rfl

/-- C7 counterexample: for a video named `a/b`, the main video file is
written under the raw name `2020-01-01 - a/b.mp4` (line 285 builds it
from the unsanitized publish date and name), which is not
filesystem-safe: sanitizing it changes it, and the sanitized base used
for the metadata/image files is `2020-01-01 - a_b`. -/
theorem C7_counterexample :
    (downloadVideo ⟨fun _ _ => true, fun _ => true, fun _ => none⟩
        Quality.hd "d" none none
        ⟨"2", "a/b", "2020-01-01", none, none, none, some "http://v/x.mp4"⟩
        ⟨[], [], [], [], [], ⟨0, 0, 0⟩⟩).1.writes.head? =
      some (pathJoin "d" "2020-01-01 - a/b.mp4") ∧
    sanitize "2020-01-01 - a/b.mp4" ≠ "2020-01-01 - a/b.mp4" ∧
    videoBase
      ⟨"2", "a/b", "2020-01-01", none, none, none, some "http://v/x.mp4"⟩ =
      "2020-01-01 - a_b" := by
  exact ⟨rfl, by decide, rfl⟩

/-- C7 (amended): for an in-range video, the files written are exactly:
the per-video metadata file and the image file, both named from the
sanitized base (publish date + name with unsafe path characters replaced
by `_`), and the main video file, whose name is built from the raw
first ten characters of the publish date and the raw (unsanitized)
video name plus the resolved URL's extension. -/
theorem C7_filenames (env : Env) (q : Quality) (dir : String)
    (fromDate toDate : Option String) (v : Video) (st : St)
    (hb : beforeFrom fromDate v = false) (ha : afterTo toDate v = false) :
    (downloadVideo env q dir fromDate toDate v st).1.writes =
      (if isDownloaded st v.id = false ∧
          jsTruthy (resolveUrl q v) = true then
        [pathJoin dir (videoTargetName v ((resolveUrl q v).getD ""))]
       else []) ++
      ((if jsTruthy v.image_url = true ∧
          isDownloaded st (v.id ++ "_image") = false then
        [pathJoin dir (videoBase v ++ extname ((v.image_url).getD ""))]
       else []) ++
      ((if fsExists st (videoMetaPath dir v) = false then [videoMetaPath dir v]
       else []) ++ st.writes)) ∧
    videoBase v = sanitize (v.publish_date ++ " - " ++ v.name) ∧
    videoTargetName v ((resolveUrl q v).getD "") =
      v.publish_date.take 10 ++ " - " ++ v.name ++
        extname ((resolveUrl q v).getD "") := by
  refine ⟨?_, rfl, rfl⟩
  rw [downloadVideo_inRange env q dir fromDate toDate v st hb ha,
    corePhase_writes, imageStep_writes, metadataStep_writes]
  rw [isDownloaded_pre_id, isDownloaded_metadataStep]

/-- Witness for C7 at an in-range video with image, absent metadata and
untracked keys: the three written paths, concretely. -/
theorem C7_witness :
    (downloadVideo ⟨fun _ _ => true, fun _ => true, fun _ => none⟩
        Quality.hd "d" none none
        ⟨"2", "a/b", "2020-01-01", some "http://i/p.png", none, none,
          some "http://v/x.mp4"⟩
        ⟨[], [], [], [], [], ⟨0, 0, 0⟩⟩).1.writes =
      ["d/2020-01-01 - a/b.mp4", "d/2020-01-01 - a_b.png",
        "d/2020-01-01 - a_b.metadata.json"] := by
  rw [(C7_filenames ⟨fun _ _ => true, fun _ => true, fun _ => none⟩
    Quality.hd "d" none none
    ⟨"2", "a/b", "2020-01-01", some "http://i/p.png", none, none,
      some "http://v/x.mp4"⟩
    ⟨[], [], [], [], [], ⟨0, 0, 0⟩⟩ rfl rfl).1]
  rfl

theorem writeShowMetadata_fs_preserve (sh : GBShow) (dir : String)
    (st : St) (p c : String) (h : st.fs.lookup p = some c) :
    (writeShowMetadata sh dir st).fs.lookup p = some c := by
  unfold writeShowMetadata
  split
  · exact h
  · rename_i hne
    simp only [writeFile, List.lookup]
    by_cases hp : p = pathJoin dir "metadata.json"
    · subst hp
      simp [fsExists, h] at hne
    · simp [beq_false_of_ne hp, h]

theorem writeShowMetadata_tracker (sh : GBShow) (dir : String) (st : St) :
    (writeShowMetadata sh dir st).tracker = st.tracker := by
  unfold writeShowMetadata
  split <;> rfl

theorem writeShowMetadata_counts (sh : GBShow) (dir : String) (st : St) :
    (writeShowMetadata sh dir st).counts = st.counts := by
  unfold writeShowMetadata
  split <;> rfl

theorem fetchShowAsset_fs (env : Env) (dir key base : String)
    (url : Option String) (st : St) :
    (fetchShowAsset env dir key base url st).fs = st.fs := by
  unfold fetchShowAsset
  dsimp only
  split
  · split
    · split <;> rfl
    · rfl
  · rfl

theorem fetchShowAsset_tracker_mono (env : Env) (dir key base : String)
    (url : Option String) (st : St) :
    st.tracker ⊆ (fetchShowAsset env dir key base url st).tracker := by
  unfold fetchShowAsset
  dsimp only
  split
  · split
    · split
      · intro a ha
        simp [markDownloaded]
        exact Or.inr ha
      · exact fun a ha => ha
    · exact fun a ha => ha
  · exact fun a ha => ha

theorem processVideos_fs_preserve (env : Env) (q : Quality) (dir : String)
    (fromDate toDate : Option String) (p c : String) :
    ∀ (videos : List Video) (st : St), st.fs.lookup p = some c →
      (processVideos env q dir fromDate toDate videos st).fs.lookup p =
        some c
  | [], _, h => h
  | v :: rest, st, h =>
    processVideos_fs_preserve env q dir fromDate toDate p c rest
      (downloadVideo env q dir fromDate toDate v st).1
      (downloadVideo_fs_preserve env q dir fromDate toDate v st p c h)

/-- C8: metadata writes are only-if-absent, at both levels: any metadata
file already present with some content still has exactly that content
after the show-level `metadata.json` write step, after a whole per-video
call, and after a whole show-mode run -- even though the freshly fetched
record may serialize differently. -/
theorem C8_metadata_idempotent (env : Env) (q : Quality)
    (baseDir dir : String) (fromDate toDate : Option String) (sh : GBShow)
    (v : Video) (videos : List Video) (st : St) (p c : String) :
    (st.fs.lookup p = some c →
      (writeShowMetadata sh dir st).fs.lookup p = some c) ∧
    (st.fs.lookup p = some c →
      (downloadVideo env q dir fromDate toDate v st).1.fs.lookup p =
        some c) ∧
    (st.fs.lookup p = some c →
      (downloadShow env q baseDir fromDate toDate sh videos st).fs.lookup p =
        some c) := by
  refine ⟨writeShowMetadata_fs_preserve sh dir st p c,
    downloadVideo_fs_preserve env q dir fromDate toDate v st p c, ?_⟩
  intro h
  unfold downloadShow
  dsimp only
  apply processVideos_fs_preserve
  show (St.fs _).lookup p = some c
  rw [fetchShowAsset_fs, fetchShowAsset_fs]
  exact writeShowMetadata_fs_preserve sh _ st p c h

/-- Witness for C8: a stale `metadata.json` with content `"old"` (not
what the fetched show would serialize to) survives a full show-mode run
unchanged. -/
theorem C8_witness :
    (downloadShow ⟨fun _ _ => true, fun _ => true, fun _ => none⟩
        Quality.hd "b" none none ⟨"S", none, none⟩
        [⟨"1", "n", "2020-01-01", none, none, none, some "http://v/x.mp4"⟩]
        ⟨[], [(pathJoin (pathJoin "b" (sanitize "S")) "metadata.json",
          "old")], [], [], [], ⟨0, 0, 0⟩⟩).fs.lookup
      (pathJoin (pathJoin "b" (sanitize "S")) "metadata.json") =
      some "old" ∧
    showJson ⟨"S", none, none⟩ ≠ "old" := by
  refine ⟨(C8_metadata_idempotent
    ⟨fun _ _ => true, fun _ => true, fun _ => none⟩ Quality.hd "b"
    (pathJoin "b" (sanitize "S")) none none ⟨"S", none, none⟩
    ⟨"1", "n", "2020-01-01", none, none, none, some "http://v/x.mp4"⟩
    [⟨"1", "n", "2020-01-01", none, none, none, some "http://v/x.mp4"⟩]
    ⟨[], [(pathJoin (pathJoin "b" (sanitize "S")) "metadata.json", "old")],
      [], [], [], ⟨0, 0, 0⟩⟩
    (pathJoin (pathJoin "b" (sanitize "S")) "metadata.json")
    "old").2.2 (by simp [List.lookup]), by decide⟩

/-- C9: in identifier mode the identifiers are processed in order; a
not-found lookup increments `failed` by exactly one and the loop
continues with the rest; a found video runs the per-video procedure with
no date bounds, so its outcome is never a date skip. -/
theorem C9_id_mode (env : Env) (q : Quality) (dir : String) (i : String)
    (rest : List String) (st : St) (v : Video) :
    (env.getVideoById i = none →
      downloadVideosByIdLoop env q dir (i :: rest) st =
        downloadVideosByIdLoop env q dir rest (incFailed st)) ∧
    (env.getVideoById i = some v →
      downloadVideosByIdLoop env q dir (i :: rest) st =
        downloadVideosByIdLoop env q dir rest
          (downloadVideo env q dir none none v st).1) ∧
    (incFailed st).counts.failed = st.counts.failed + 1 ∧
    (incFailed st).counts.downloaded = st.counts.downloaded ∧
    (incFailed st).counts.skipped = st.counts.skipped ∧
    (downloadVideo env q dir none none v st).2 ≠ Outcome.skipBeforeDate ∧
    (downloadVideo env q dir none none v st).2 ≠ Outcome.skipAfterDate := by
  refine ⟨?_, ?_, rfl, rfl, rfl, ?_, ?_⟩
  · intro h
    have heq : downloadVideosByIdLoop env q dir (i :: rest) st =
        match env.getVideoById i with
        | none => downloadVideosByIdLoop env q dir rest (incFailed st)
        | some w => downloadVideosByIdLoop env q dir rest
            (downloadVideo env q dir none none w st).1 := rfl
    rw [heq, h]
  · intro h
    have heq : downloadVideosByIdLoop env q dir (i :: rest) st =
        match env.getVideoById i with
        | none => downloadVideosByIdLoop env q dir rest (incFailed st)
        | some w => downloadVideosByIdLoop env q dir rest
            (downloadVideo env q dir none none w st).1 := rfl
    rw [heq, h]
  · rw [downloadVideo_inRange env q dir none none v st rfl rfl]
    rcases corePhase_outcome env q dir v
      (imageStep env dir v (metadataStep dir v st)) with h | h | h | h <;>
      rw [h] <;> simp
  · rw [downloadVideo_inRange env q dir none none v st rfl rfl]
    rcases corePhase_outcome env q dir v
      (imageStep env dir v (metadataStep dir v st)) with h | h | h | h <;>
      rw [h] <;> simp

/-- Witness for C9: one invalid and one valid identifier, in that order;
the invalid one adds exactly one `failed`, the valid one downloads, and
the full identifier-mode run ends with downloaded=1, skipped=0,
failed=1. -/
theorem C9_witness :
    downloadVideosByIdLoop
      ⟨fun _ _ => true, fun _ => true,
        fun i => if i = "good"
          then some ⟨"g", "n", "2020-01-01", none, none, none, some "http://v/x.mp4"⟩
          else none⟩
      Quality.hd "d" ["bad", "good"] ⟨[], [], [], [], [], ⟨0, 0, 0⟩⟩ =
      downloadVideosByIdLoop
        ⟨fun _ _ => true, fun _ => true,
          fun i => if i = "good"
            then some ⟨"g", "n", "2020-01-01", none, none, none, some "http://v/x.mp4"⟩
            else none⟩
        Quality.hd "d" ["good"]
        (incFailed ⟨[], [], [], [], [], ⟨0, 0, 0⟩⟩) ∧
    (incFailed (⟨[], [], [], [], [], ⟨0, 0, 0⟩⟩ : St)).counts.failed =
      0 + 1 ∧
    (downloadVideosById
      ⟨fun _ _ => true, fun _ => true,
        fun i => if i = "good"
          then some ⟨"g", "n", "2020-01-01", none, none, none, some "http://v/x.mp4"⟩
          else none⟩
      Quality.hd "d" ["bad", "good"]
      ⟨[], [], [], [], [], ⟨0, 0, 0⟩⟩).counts = ⟨1, 0, 1⟩ := by
  refine ⟨(C9_id_mode
    ⟨fun _ _ => true, fun _ => true,
      fun i => if i = "good"
        then some ⟨"g", "n", "2020-01-01", none, none, none, some "http://v/x.mp4"⟩
        else none⟩
    Quality.hd "d" "bad" ["good"] ⟨[], [], [], [], [], ⟨0, 0, 0⟩⟩
    ⟨"g", "n", "2020-01-01", none, none, none, some "http://v/x.mp4"⟩).1
      rfl, rfl, rfl⟩

/-- The counter total of one run. -/
def counterSum (c : DownloadCounter) : Nat :=
  c.downloaded + c.skipped + c.failed

theorem bump_sum (c : DownloadCounter) (o : Outcome) :
    counterSum (bump c o) = counterSum c + 1 := by
  cases o <;> simp [bump, counterSum] <;> omega

theorem bump_failed (c : DownloadCounter) (o : Outcome) :
    (bump c o).failed =
      if o = Outcome.downloadFailed then c.failed + 1 else c.failed := by
  cases o <;> rfl

theorem bump_skip (c : DownloadCounter) (o : Outcome)
    (h : Outcome.isSkip o = true) :
    bump c o = { c with skipped := c.skipped + 1 } := by
  cases o <;> try rfl
  all_goals simp [Outcome.isSkip] at h

theorem downloadVideo_failed_eq (env : Env) (q : Quality) (dir : String)
    (fromDate toDate : Option String) (v : Video) (st : St) :
    (downloadVideo env q dir fromDate toDate v st).1.counts.failed =
      if (downloadVideo env q dir fromDate toDate v st).2 =
          Outcome.downloadFailed
      then st.counts.failed + 1 else st.counts.failed := by
  rw [downloadVideo_counts, bump_failed]

theorem downloadVideo_failed_le (env : Env) (q : Quality) (dir : String)
    (fromDate toDate : Option String) (v : Video) (st : St) :
    st.counts.failed ≤
      (downloadVideo env q dir fromDate toDate v st).1.counts.failed := by
  rw [downloadVideo_failed_eq]
  split <;> omega

theorem processVideos_failed_le (env : Env) (q : Quality) (dir : String)
    (fromDate toDate : Option String) :
    ∀ (videos : List Video) (st : St),
      st.counts.failed ≤
        (processVideos env q dir fromDate toDate videos st).counts.failed
  | [], _ => le_refl _
  | v :: rest, st =>
    le_trans (downloadVideo_failed_le env q dir fromDate toDate v st)
      (processVideos_failed_le env q dir fromDate toDate rest
        (downloadVideo env q dir fromDate toDate v st).1)

theorem processVideos_tracker_mono (env : Env) (q : Quality) (dir : String)
    (fromDate toDate : Option String) :
    ∀ (videos : List Video) (st : St),
      st.tracker ⊆
        (processVideos env q dir fromDate toDate videos st).tracker
  | [], _ => fun _ ha => ha
  | v :: rest, st => fun _ ha =>
    processVideos_tracker_mono env q dir fromDate toDate rest
      (downloadVideo env q dir fromDate toDate v st).1
      (downloadVideo_tracker_mono env q dir fromDate toDate v st ha)

theorem processVideos_sum (env : Env) (q : Quality) (dir : String)
    (fromDate toDate : Option String) :
    ∀ (videos : List Video) (st : St),
      counterSum
          (processVideos env q dir fromDate toDate videos st).counts =
        counterSum st.counts + videos.length
  | [], _ => rfl
  | v :: rest, st => by
    show counterSum (processVideos env q dir fromDate toDate rest
        (downloadVideo env q dir fromDate toDate v st).1).counts = _
    rw [processVideos_sum env q dir fromDate toDate rest _,
      downloadVideo_counts, bump_sum]
    show counterSum st.counts + 1 + rest.length =
      counterSum st.counts + (rest.length + 1)
    omega

/-- C10: every per-video call increments exactly one of the three
counters by exactly one (the `bump` of its outcome) and leaves the other
two unchanged, so the counter total rises by exactly one per call, and
after a show-mode run (fresh counters, one call per listed video) the
total `downloaded + skipped + failed` equals the video count. -/
theorem C10_one_counter_per_video (env : Env) (q : Quality)
    (baseDir dir : String) (fromDate toDate : Option String) (sh : GBShow)
    (videos : List Video) (v : Video) (st : St) :
    (downloadVideo env q dir fromDate toDate v st).1.counts =
      bump st.counts (downloadVideo env q dir fromDate toDate v st).2 ∧
    ((downloadVideo env q dir fromDate toDate v st).1.counts =
        { st.counts with downloaded := st.counts.downloaded + 1 } ∨
      (downloadVideo env q dir fromDate toDate v st).1.counts =
        { st.counts with skipped := st.counts.skipped + 1 } ∨
      (downloadVideo env q dir fromDate toDate v st).1.counts =
        { st.counts with failed := st.counts.failed + 1 }) ∧
    counterSum (downloadVideo env q dir fromDate toDate v st).1.counts =
      counterSum st.counts + 1 ∧
    counterSum
        (downloadShow env q baseDir fromDate toDate sh videos st).counts =
      videos.length := by
  have hc := downloadVideo_counts env q dir fromDate toDate v st
  refine ⟨hc, ?_, ?_, ?_⟩
  · cases ho : (downloadVideo env q dir fromDate toDate v st).2
    · exact Or.inr (Or.inl (by rw [hc, ho]; rfl))
    · exact Or.inr (Or.inl (by rw [hc, ho]; rfl))
    · exact Or.inr (Or.inl (by rw [hc, ho]; rfl))
    · exact Or.inr (Or.inl (by rw [hc, ho]; rfl))
    · exact Or.inl (by rw [hc, ho]; rfl)
    · exact Or.inr (Or.inr (by rw [hc, ho]; rfl))
  · rw [hc, bump_sum]
  · unfold downloadShow
    dsimp only
    rw [processVideos_sum]
    show 0 + videos.length = videos.length
    omega

/-- Outcome of `corePhase` is `skipNoUrl` only when no URL resolves. -/
theorem corePhase_noUrl_of (env : Env) (q : Quality) (dir : String)
    (v : Video) (st : St)
    (h : (corePhase env q dir v st).2 = Outcome.skipNoUrl) :
    jsTruthy (resolveUrl q v) = false := by
  unfold corePhase at h
  dsimp only at h
  split at h
  · simp at h
  · split at h
    · rename_i h2
      exact h2
    · have hf := fetchStep_spec env dir v ((resolveUrl q v).getD "")
        (probeStep env q v ((resolveUrl q v).getD "") st).2
        (probeStep env q v ((resolveUrl q v).getD "") st).1
      rcases hf.1 with h3 | h3 <;> rw [h] at h3 <;> simp at h3

/-- When no URL resolves, `corePhase` always skips. -/
theorem corePhase_isSkip_noUrl (env : Env) (q : Quality) (dir : String)
    (v : Video) (st : St) (h : jsTruthy (resolveUrl q v) = false) :
    Outcome.isSkip (corePhase env q dir v st).2 = true := by
  unfold corePhase
  dsimp only
  split
  · rfl
  · rfl

/-- Skip persistence: a per-video call that did not fail, replayed from
any state whose ledger contains the first call's final ledger, is a
skip. -/
theorem downloadVideo_persist (env : Env) (q : Quality) (dir : String)
    (fromDate toDate : Option String) (v : Video) (st1 st2 : St)
    (hfail : (downloadVideo env q dir fromDate toDate v st1).2 ≠
      Outcome.downloadFailed)
    (hsub : (downloadVideo env q dir fromDate toDate v st1).1.tracker ⊆
      st2.tracker) :
    Outcome.isSkip (downloadVideo env q dir fromDate toDate v st2).2 =
      true := by
  cases hb : beforeFrom fromDate v
  · cases ha : afterTo toDate v
    · rw [downloadVideo_inRange env q dir fromDate toDate v st2 hb ha]
      rw [downloadVideo_inRange env q dir fromDate toDate v st1 hb ha]
        at hfail hsub
      rcases corePhase_outcome env q dir v
        (imageStep env dir v (metadataStep dir v st1)) with h1 | h1 | h1 | h1
      · have hid1 : v.id ∈ st1.tracker := by
          have h2 := (corePhase_skipDownloaded_iff env q dir v _).mp h1
          simp only [isDownloaded, decide_eq_true_eq] at h2
          exact (pre_id_mem env dir v st1).mp h2
        have hid2 : v.id ∈ st2.tracker := by
          apply hsub
          by_cases hok : (corePhase env q dir v
              (imageStep env dir v (metadataStep dir v st1))).2 =
              Outcome.downloadedOk
          · rw [corePhase_tracker_ok env q dir v _ hok]
            exact List.mem_cons_of_mem _
              ((pre_id_mem env dir v st1).mpr hid1)
          · rw [corePhase_tracker_notOk env q dir v _ hok]
            exact (pre_id_mem env dir v st1).mpr hid1
        have hd2 : isDownloaded
            (imageStep env dir v (metadataStep dir v st2)) v.id = true := by
          simp only [isDownloaded, decide_eq_true_eq]
          exact (pre_id_mem env dir v st2).mpr hid2
        rw [corePhase_skip_eq env q dir v _ hd2]
        rfl
      · exact corePhase_isSkip_noUrl env q dir v _
          (corePhase_noUrl_of env q dir v _ h1)
      · have hid2 : v.id ∈ st2.tracker := by
          apply hsub
          rw [corePhase_tracker_ok env q dir v _ h1]
          exact List.mem_cons_self _ _
        have hd2 : isDownloaded
            (imageStep env dir v (metadataStep dir v st2)) v.id = true := by
          simp only [isDownloaded, decide_eq_true_eq]
          exact (pre_id_mem env dir v st2).mpr hid2
        rw [corePhase_skip_eq env q dir v _ hd2]
        rfl
      · exact absurd h1 hfail
    · rw [downloadVideo_after env q dir fromDate toDate v st2 hb ha]
      rfl
  · rw [downloadVideo_before env q dir fromDate toDate v st2 hb]
    rfl

/-- Rerun induction: if a run over a video list added no failures, then a
rerun from any state whose ledger contains the first run's final ledger
only skips: every video adds one `skipped` and nothing else. -/
theorem processVideos_rerun (env : Env) (q : Quality) (dir : String)
    (fromDate toDate : Option String) :
    ∀ (videos : List Video) (st1 st2 : St),
      (processVideos env q dir fromDate toDate videos st1).counts.failed =
        st1.counts.failed →
      (processVideos env q dir fromDate toDate videos st1).tracker ⊆
        st2.tracker →
      (processVideos env q dir fromDate toDate videos st2).counts =
        ⟨st2.counts.downloaded, st2.counts.skipped + videos.length,
          st2.counts.failed⟩ := by
  intro videos
  induction videos with
  | nil =>
    intro st1 st2 _ _
    rfl
  | cons v rest ih =>
    intro st1 st2 hfail hsub
    have hfail' : (processVideos env q dir fromDate toDate rest
        (downloadVideo env q dir fromDate toDate v st1).1).counts.failed =
        st1.counts.failed := hfail
    have hsub1 : (processVideos env q dir fromDate toDate rest
        (downloadVideo env q dir fromDate toDate v st1).1).tracker ⊆
        st2.tracker := hsub
    have hle1 := downloadVideo_failed_le env q dir fromDate toDate v st1
    have hle2 := processVideos_failed_le env q dir fromDate toDate rest
      (downloadVideo env q dir fromDate toDate v st1).1
    have hdvfail : (downloadVideo env q dir fromDate toDate v
        st1).1.counts.failed = st1.counts.failed :=
      le_antisymm (hfail' ▸ hle2) hle1
    have ho1 : (downloadVideo env q dir fromDate toDate v st1).2 ≠
        Outcome.downloadFailed := by
      intro hcon
      have hx := downloadVideo_failed_eq env q dir fromDate toDate v st1
      rw [if_pos hcon, hdvfail] at hx
      simp at hx
    have hrest_fail : (processVideos env q dir fromDate toDate rest
        (downloadVideo env q dir fromDate toDate v st1).1).counts.failed =
        (downloadVideo env q dir fromDate toDate v st1).1.counts.failed := by
      rw [hfail', hdvfail]
    have hsub0 : (downloadVideo env q dir fromDate toDate v st1).1.tracker ⊆
        st2.tracker := fun a ha =>
      hsub1 (processVideos_tracker_mono env q dir fromDate toDate rest _ ha)
    have ho2 := downloadVideo_persist env q dir fromDate toDate v st1 st2
      ho1 hsub0
    have hc2 : (downloadVideo env q dir fromDate toDate v st2).1.counts =
        { st2.counts with skipped := st2.counts.skipped + 1 } := by
      rw [downloadVideo_counts, bump_skip _ _ ho2]
    have hsub2 : (processVideos env q dir fromDate toDate rest
        (downloadVideo env q dir fromDate toDate v st1).1).tracker ⊆
        (downloadVideo env q dir fromDate toDate v st2).1.tracker :=
      fun a ha =>
        downloadVideo_tracker_mono env q dir fromDate toDate v st2
          (hsub1 ha)
    have hres := ih (downloadVideo env q dir fromDate toDate v st1).1
      (downloadVideo env q dir fromDate toDate v st2).1 hrest_fail hsub2
    show (processVideos env q dir fromDate toDate rest
      (downloadVideo env q dir fromDate toDate v st2).1).counts = _
    rw [hres, hc2]
    show (⟨st2.counts.downloaded, st2.counts.skipped + 1 + rest.length,
        st2.counts.failed⟩ : DownloadCounter) =
      ⟨st2.counts.downloaded, st2.counts.skipped + (rest.length + 1),
        st2.counts.failed⟩
    have harith : st2.counts.skipped + 1 + rest.length =
        st2.counts.skipped + (rest.length + 1) := by omega
    rw [harith]

/-- `downloadShow` unfolded: show metadata, poster, logo, fresh
counters, then the per-video loop. -/
theorem downloadShow_def (env : Env) (q : Quality) (baseDir : String)
    (fromDate toDate : Option String) (sh : GBShow) (videos : List Video)
    (st : St) :
    downloadShow env q baseDir fromDate toDate sh videos st =
      processVideos env q (pathJoin baseDir (sanitize sh.title)) fromDate
        toDate videos
        { fetchShowAsset env (pathJoin baseDir (sanitize sh.title))
            "show_logo" "logo" sh.logo_url
            (fetchShowAsset env (pathJoin baseDir (sanitize sh.title))
              "show_image" "image" sh.image_url
              (writeShowMetadata sh (pathJoin baseDir (sanitize sh.title))
                st)) with
          counts := ⟨0, 0, 0⟩ } := rfl

/-- C6 counterexample: a show with one video whose download always fails
(no external changes between runs): the first run ends with `failed = 1`,
and the identical second run again yields `failed = 1` and `skipped = 0`,
not `failed = 0` and `skipped = 1` as claimed. -/
theorem C6_counterexample :
    (downloadShow ⟨fun _ _ => false, fun _ => false, fun _ => none⟩
        Quality.hd "b" none none ⟨"S", none, none⟩
        [⟨"1", "n", "2020-01-01", none, none, none, some "http://v/x.mp4"⟩]
        ⟨[], [], [], [], [], ⟨0, 0, 0⟩⟩).counts = ⟨0, 0, 1⟩ ∧
    (downloadShow ⟨fun _ _ => false, fun _ => false, fun _ => none⟩
        Quality.hd "b" none none ⟨"S", none, none⟩
        [⟨"1", "n", "2020-01-01", none, none, none, some "http://v/x.mp4"⟩]
        (downloadShow ⟨fun _ _ => false, fun _ => false, fun _ => none⟩
          Quality.hd "b" none none ⟨"S", none, none⟩
          [⟨"1", "n", "2020-01-01", none, none, none, some "http://v/x.mp4"⟩]
          ⟨[], [], [], [], [], ⟨0, 0, 0⟩⟩)).counts = ⟨0, 0, 1⟩ ∧
    ([⟨"1", "n", "2020-01-01", none, none, none,
        some "http://v/x.mp4"⟩] : List Video).length = 1 := by
  refine ⟨rfl, rfl, rfl⟩

/-- C6 (amended): when the first show-mode run reported no failures,
re-running the identical invocation on the resulting state (same
environment responses, ledger and files untouched in between) yields
`downloaded = 0`, `failed = 0` and `skipped` equal to the total number of
videos in the show's list. -/
theorem C6_second_run_all_skipped (env : Env) (q : Quality)
    (baseDir : String) (fromDate toDate : Option String) (sh : GBShow)
    (videos : List Video) (st : St)
    (h : (downloadShow env q baseDir fromDate toDate sh videos
      st).counts.failed = 0) :
    (downloadShow env q baseDir fromDate toDate sh videos
        (downloadShow env q baseDir fromDate toDate sh videos st)).counts =
      ⟨0, videos.length, 0⟩ := by
  rw [downloadShow_def] at h
  rw [downloadShow_def, downloadShow_def]
  have hr := processVideos_rerun env q (pathJoin baseDir (sanitize sh.title))
    fromDate toDate videos
    { fetchShowAsset env (pathJoin baseDir (sanitize sh.title))
        "show_logo" "logo" sh.logo_url
        (fetchShowAsset env (pathJoin baseDir (sanitize sh.title))
          "show_image" "image" sh.image_url
          (writeShowMetadata sh (pathJoin baseDir (sanitize sh.title))
            st)) with
      counts := ⟨0, 0, 0⟩ }
    { fetchShowAsset env (pathJoin baseDir (sanitize sh.title))
        "show_logo" "logo" sh.logo_url
        (fetchShowAsset env (pathJoin baseDir (sanitize sh.title))
          "show_image" "image" sh.image_url
          (writeShowMetadata sh (pathJoin baseDir (sanitize sh.title))
            (processVideos env q (pathJoin baseDir (sanitize sh.title))
              fromDate toDate videos
              { fetchShowAsset env (pathJoin baseDir (sanitize sh.title))
                  "show_logo" "logo" sh.logo_url
                  (fetchShowAsset env
                    (pathJoin baseDir (sanitize sh.title))
                    "show_image" "image" sh.image_url
                    (writeShowMetadata sh
                      (pathJoin baseDir (sanitize sh.title)) st)) with
                counts := ⟨0, 0, 0⟩ }))) with
      counts := ⟨0, 0, 0⟩ }
    h ?_
  · rw [hr]
    show (⟨0, 0 + videos.length, 0⟩ : DownloadCounter) = _
    have harith : 0 + videos.length = videos.length := by omega
    rw [harith]
  · intro a ha
    show a ∈ (fetchShowAsset env (pathJoin baseDir (sanitize sh.title))
      "show_logo" "logo" sh.logo_url
      (fetchShowAsset env (pathJoin baseDir (sanitize sh.title))
        "show_image" "image" sh.image_url
        (writeShowMetadata sh (pathJoin baseDir (sanitize sh.title))
          (processVideos env q (pathJoin baseDir (sanitize sh.title))
            fromDate toDate videos
            { fetchShowAsset env (pathJoin baseDir (sanitize sh.title))
                "show_logo" "logo" sh.logo_url
                (fetchShowAsset env (pathJoin baseDir (sanitize sh.title))
                  "show_image" "image" sh.image_url
                  (writeShowMetadata sh
                    (pathJoin baseDir (sanitize sh.title)) st)) with
              counts := ⟨0, 0, 0⟩ })))).tracker
    apply fetchShowAsset_tracker_mono
    apply fetchShowAsset_tracker_mono
    rw [writeShowMetadata_tracker]
    exact ha

/-- Witness for C6 on a one-video show whose download succeeds: the first
run has no failures, and the second run skips the video. -/
theorem C6_witness :
    (downloadShow ⟨fun _ _ => true, fun _ => true, fun _ => none⟩
        Quality.hd "b" none none ⟨"S", none, none⟩
        [⟨"1", "n", "2020-01-01", none, none, none, some "http://v/x.mp4"⟩]
        ⟨[], [], [], [], [], ⟨0, 0, 0⟩⟩).counts.failed = 0 ∧
    (downloadShow ⟨fun _ _ => true, fun _ => true, fun _ => none⟩
        Quality.hd "b" none none ⟨"S", none, none⟩
        [⟨"1", "n", "2020-01-01", none, none, none, some "http://v/x.mp4"⟩]
        (downloadShow ⟨fun _ _ => true, fun _ => true, fun _ => none⟩
          Quality.hd "b" none none ⟨"S", none, none⟩
          [⟨"1", "n", "2020-01-01", none, none, none, some "http://v/x.mp4"⟩]
          ⟨[], [], [], [], [], ⟨0, 0, 0⟩⟩)).counts = ⟨0, 1, 0⟩ := by
  exact ⟨rfl, C6_second_run_all_skipped
    ⟨fun _ _ => true, fun _ => true, fun _ => none⟩ Quality.hd "b"
    none none ⟨"S", none, none⟩
    [⟨"1", "n", "2020-01-01", none, none, none, some "http://v/x.mp4"⟩]
    ⟨[], [], [], [], [], ⟨0, 0, 0⟩⟩ rfl⟩

end GiantBombDL
